import Mathlib

/-!
# vscode-explorer-command: the `ExplorerCommandHandler` of `src/explorer_command.cc`

A shallow embedding of the handler's `IExplorerCommand` methods.  The methods are
translated statement by statement.  What they call in the operating system (the
registry, the shell item array handed in by the host, process creation) is not part of
the repository; it is modelled by an explicit `World` that the methods thread through,
following the documented Win32 contracts.  Every call into the system is recorded in
`World.log`, so that "no process is launched" or "no further item is resolved" are
statements about that log.

Conventions:
* an `HRESULT`, a registry status (`LSTATUS`) and a `BOOL` are signed 32-bit integers and
  are modelled by `Int`;
* a wide string is the list of its code units without the terminator, a buffer is the
  list of its elements, and `wcs` reads a string out of a buffer;
* a method that ends in a C++ exception has the outcome `Outcome.out_of_range`;
* memory allocation is taken to succeed;
* `REGISTRY_LOCATION`, a build-time constant that is not in the source file, is a
  parameter of the methods that use it.
-/

namespace ExplorerCommand

/-! ## Scalars and constants of the Windows headers -/

/-- Wide text: the UTF-16 code units of a string, terminator excluded. -/
abbrev WString := List Nat

/-- The `HRESULT` of success. -/
def S_OK : Int := 0

/-- The `HRESULT` 0x80004001 read as the signed 32-bit integer it is. -/
def E_NOTIMPL : Int := -2147467263

/-- Registry status (`LSTATUS`) of success. -/
def ERROR_SUCCESS : Int := 0

/-- Registry status: the key or the value does not exist. -/
def ERROR_FILE_NOT_FOUND : Int := 2

/-- Registry status: the handle is not an open key. -/
def ERROR_INVALID_HANDLE : Int := 6

/-- Registry status: the caller's buffer is too small for the value. -/
def ERROR_MORE_DATA : Int := 234

/-- The `EXPCMDSTATE` of an enabled command. -/
def ECS_ENABLED : Nat := 0

/-- The `BOOL` of success. -/
def TRUE : Int := 1

/-- The `BOOL` of failure. -/
def FALSE : Int := 0

/-- The test `FAILED(hr)` of winerror.h: `((HRESULT)(hr)) < 0`. -/
def FAILED (hr : Int) : Bool := decide (hr < 0)

/-- The statement `RETURN_IF_FAILED(expr);` followed by the rest of the method:
`HRESULT hresult = (expr); if (FAILED(hresult)) return hresult;`.  The value of `expr`
is converted to `HRESULT` as it is (a registry status and a `BOOL` are 32-bit integers
too); `ret` is the end of the method when it returns `hresult` here. -/
def RETURN_IF_FAILED {α : Type} (hresult : Int) (ret : Int → α) (rest : α) : α :=
  if FAILED hresult then ret hresult else rest

/-- The value of `std::wstring::npos`, that is `static_cast<size_t>(-1)` (64-bit build). -/
def npos : Nat := 2 ^ 64 - 1

/-- The literal `L"%1"`. -/
def PLACEHOLDER : WString := [37, 49]

/-- The literal `L"Icon"`. -/
def ICON : WString := [73, 99, 111, 110]

/-- The number of elements of `wchar_t value_w[1024]`; a `wchar_t` has 2 bytes, so
`sizeof(value_w)` is `2 * VALUE_W_LEN`. -/
def VALUE_W_LEN : Nat := 1024

/-! ## The world outside the handler -/

/-- A call into the system, as recorded in the log. -/
inductive Event where
  | RegOpenKeyExA (subKey : String)
  | RegGetValueW (hkey : Nat) (value : WString)
  | RegCloseKey (hkey : Nat)
  | GetCount
  | GetItemAt (i : Nat)
  | GetDisplayName
  | CreateProcess (commandLine : WString)
  | CloseHandle (handle : Nat)
  deriving DecidableEq, Repr

/-- What an open handle refers to. -/
inductive Object where
  | key (subKey : String)
  | process (commandLine : WString)
  | thread (commandLine : WString)
  deriving DecidableEq, Repr

/-- A registry key: its `REG_SZ` values by name; the default value has the empty name. -/
structure RegKey where
  values : WString → Option WString

/-- The state of the system around one call of the handler. -/
structure World where
  /-- The keys below `HKEY_CLASSES_ROOT`, by sub-key path. -/
  registry : String → Option RegKey
  /-- The open handles of the process. -/
  handles : List (Nat × Object)
  /-- Whether the system can create a process from a command line. -/
  canLaunch : WString → Bool
  /-- The calls made so far, oldest first. -/
  log : List Event

/-- Record a call. -/
def World.emit (w : World) (e : Event) : World :=
  { w with log := w.log ++ [e] }

/-- A handle value that is not in use (and not `NULL`). -/
def freshHandle (hs : List (Nat × Object)) : Nat :=
  (hs.map Prod.fst).foldr max 0 + 1

/-- The key an open handle refers to, if it is an open key handle. -/
def World.keyOf (w : World) (hkey : Nat) : Option RegKey :=
  match w.handles.lookup hkey with
  | some (Object.key subKey) => w.registry subKey
  | _ => none

/-- The open key handles. -/
def World.openKeys (w : World) : List Nat :=
  (w.handles.filter fun h => match h.2 with
    | Object.key _ => true
    | _ => false).map Prod.fst

/-- The command lines handed to `CreateProcess`, oldest first. -/
def processCalls (log : List Event) : List WString :=
  log.filterMap fun e => match e with
    | Event.CreateProcess c => some c
    | _ => none

/-- The indices handed to `IShellItemArray::GetItemAt`, oldest first. -/
def itemCalls (log : List Event) : List Nat :=
  log.filterMap fun e => match e with
    | Event.GetItemAt i => some i
    | _ => none

/-- Uninitialised automatic storage of a method: what `HKEY hkey;` and
`wchar_t value_w[1024];` hold before anything is written to them. -/
structure Stack where
  hkey : Nat
  value_w : Nat → Nat

/-- The array `value_w` as it is on entry. -/
def Stack.buffer (stk : Stack) : List Nat :=
  (List.range VALUE_W_LEN).map stk.value_w

/-- `RegOpenKeyExA(HKEY_CLASSES_ROOT, subKey, 0, KEY_QUERY_VALUE, &hkey)`: status, the
content of `hkey` afterwards, and the world.  An absent key gives `ERROR_FILE_NOT_FOUND`
and leaves `hkey` as it was. -/
def RegOpenKeyExA (w : World) (subKey : String) (hkey : Nat) : Int × Nat × World :=
  let w := w.emit (Event.RegOpenKeyExA subKey)
  match w.registry subKey with
  | none => (ERROR_FILE_NOT_FOUND, hkey, w)
  | some _ =>
    let h := freshHandle w.handles
    (ERROR_SUCCESS, h, { w with handles := (h, Object.key subKey) :: w.handles })

/-- `RegGetValueW(hkey, nullptr, value, flags, NULL, data, &cb)` with `cb` the size of
`data` in bytes: status, the content of `data` afterwards, and the world.  The flags of
the source, `RRF_RT_REG_SZ | REG_EXPAND_SZ | RRF_ZEROONFAILURE`, are
`RRF_RT_REG_SZ | RRF_ZEROONFAILURE` (`REG_EXPAND_SZ` is the same bit, 2, as
`RRF_RT_REG_SZ`).  On success the string and its terminator are written at the start of
`data`; they need `2 * (length + 1)` bytes, and a smaller buffer gives `ERROR_MORE_DATA`.
On every failure `RRF_ZEROONFAILURE` zeroes the buffer.  A handle that is not an open key
gives `ERROR_INVALID_HANDLE`, an absent value `ERROR_FILE_NOT_FOUND`. -/
def RegGetValueW (w : World) (hkey : Nat) (value : WString) (data : List Nat) (cb : Nat) :
    Int × List Nat × World :=
  let w := w.emit (Event.RegGetValueW hkey value)
  match w.keyOf hkey with
  | none => (ERROR_INVALID_HANDLE, List.replicate data.length 0, w)
  | some key =>
    match key.values value with
    | none => (ERROR_FILE_NOT_FOUND, List.replicate data.length 0, w)
    | some s =>
      if 2 * (s.length + 1) ≤ cb then
        (ERROR_SUCCESS, s ++ [0] ++ data.drop (s.length + 1), w)
      else
        (ERROR_MORE_DATA, List.replicate data.length 0, w)

/-- `RegCloseKey(hkey)`: an open key handle is closed, anything else is
`ERROR_INVALID_HANDLE`. -/
def RegCloseKey (w : World) (hkey : Nat) : Int × World :=
  let w := w.emit (Event.RegCloseKey hkey)
  match w.handles.lookup hkey with
  | some (Object.key _) =>
    (ERROR_SUCCESS, { w with handles := w.handles.filter fun h => h.1 != hkey })
  | _ => (ERROR_INVALID_HANDLE, w)

/-- The string a `const wchar_t*` into a buffer denotes: the code units before the first
terminator. -/
def wcs (buf : List Nat) : WString :=
  buf.takeWhile fun c => c != 0

/-- `SHStrDup(psz, &out)`: a fresh copy of the string (allocation is taken to succeed). -/
def SHStrDup (psz : List Nat) : Int × Option WString :=
  (S_OK, some (wcs psz))

/-- `CreateProcess(nullptr, commandLine, ...)`: the `BOOL`, the `hProcess` and `hThread`
of the `PROCESS_INFORMATION` (which the caller zero-initialised), and the world. -/
def CreateProcess (w : World) (commandLine : WString) : Int × Nat × Nat × World :=
  let w := w.emit (Event.CreateProcess commandLine)
  if w.canLaunch commandLine then
    let hp := freshHandle w.handles
    let ht := hp + 1
    (TRUE, hp, ht,
      { w with handles :=
          (ht, Object.thread commandLine) :: (hp, Object.process commandLine) :: w.handles })
  else
    (FALSE, 0, 0, w)

/-- `CloseHandle(handle)` on a process or thread handle. -/
def CloseHandle (w : World) (handle : Nat) : World :=
  let w := w.emit (Event.CloseHandle handle)
  match w.handles.lookup handle with
  | some (Object.process _) => { w with handles := w.handles.filter fun h => h.1 != handle }
  | some (Object.thread _) => { w with handles := w.handles.filter fun h => h.1 != handle }
  | _ => w

/-- An `IShellItem` of the host: the `HRESULT` of
`GetDisplayName(SIGDN_FILESYSPATH, &path)` and the string `path` then points to. -/
structure ShellItem where
  GetDisplayName : Int × WString

/-- An `IShellItemArray` of the host: the `HRESULT` and count of `GetCount`, and the
`HRESULT` and item of `GetItemAt`. -/
structure ShellItemArray where
  GetCount : Int × Nat
  GetItemAt : Nat → Int × ShellItem

/-! ## `std::wstring` -/

/-- The search of `basic_string::find` from a position on: the first position at which
`pat` starts, `npos` if there is none. -/
def findFrom (pat : WString) : WString → Nat → Nat
  | [], pos => if pat.isEmpty then pos else npos
  | c :: cs, pos => if pat.isPrefixOf (c :: cs) then pos else findFrom pat cs (pos + 1)

/-- `s.find(pat)`. -/
def find (s pat : WString) : Nat :=
  findFrom pat s 0

/-- `s.replace(pos, n, str)`: `none` stands for the `std::out_of_range` thrown when
`pos > s.size()`; otherwise `min(n, size - pos)` characters at `pos` give way to `str`. -/
def replace (s : WString) (pos n : Nat) (str : WString) : Option WString :=
  if pos > s.length then none
  else some (s.take pos ++ str ++ s.drop (pos + min n (s.length - pos)))

/-! ## The handler -/

/-- How a method that may throw ends. -/
inductive Outcome where
  | returned (hr : Int)
  | out_of_range
  deriving DecidableEq, Repr

/-- The end of `GetTitle` and `GetIcon`: the `HRESULT`, the output string slot and the
world. -/
structure StringResult where
  hr : Int
  out : Option WString
  world : World

/-- The end of `GetState`. -/
structure StateResult where
  hr : Int
  cmdState : Nat
  world : World

/-- The end of `Invoke`. -/
structure InvokeResult where
  outcome : Outcome
  world : World

/-- `ExplorerCommandHandler::GetTitle(items, name)`; `name` is the prior content of the
output slot. -/
def GetTitle (REGISTRY_LOCATION : String) (w : World) (stk : Stack)
    (_items : Option ShellItemArray) (name : Option WString) : StringResult :=
  let value_size_w := 2 * VALUE_W_LEN
  let full_registry_location := REGISTRY_LOCATION
  let r := RegOpenKeyExA w full_registry_location stk.hkey
  RETURN_IF_FAILED r.1 (fun hresult => ⟨hresult, name, r.2.2⟩) <|
  let hkey := r.2.1
  let g := RegGetValueW r.2.2 hkey [] stk.buffer value_size_w
  RETURN_IF_FAILED g.1 (fun hresult => ⟨hresult, name, g.2.2⟩) <|
  let value_w := g.2.1
  let c := RegCloseKey g.2.2 hkey
  RETURN_IF_FAILED c.1 (fun hresult => ⟨hresult, name, c.2⟩) <|
  let d := SHStrDup value_w
  ⟨d.1, d.2, c.2⟩

/-- `ExplorerCommandHandler::GetIcon(items, icon)`; `icon` is the prior content of the
output slot. -/
def GetIcon (REGISTRY_LOCATION : String) (w : World) (stk : Stack)
    (_items : Option ShellItemArray) (icon : Option WString) : StringResult :=
  let value_size_w := 2 * VALUE_W_LEN
  let full_registry_location := REGISTRY_LOCATION
  let r := RegOpenKeyExA w full_registry_location stk.hkey
  RETURN_IF_FAILED r.1 (fun hresult => ⟨hresult, icon, r.2.2⟩) <|
  let hkey := r.2.1
  let g := RegGetValueW r.2.2 hkey ICON stk.buffer value_size_w
  RETURN_IF_FAILED g.1 (fun hresult => ⟨hresult, icon, g.2.2⟩) <|
  let value_w := g.2.1
  let d := SHStrDup value_w
  ⟨d.1, d.2, g.2.2⟩

/-- `ExplorerCommandHandler::GetToolTip(items, infoTip)`; `infoTip` is the prior content
of the output slot. -/
def GetToolTip (w : World) (_items : Option ShellItemArray) (_infoTip : Option WString) :
    StringResult :=
  ⟨E_NOTIMPL, none, w⟩

/-- `ExplorerCommandHandler::GetState(items, okToBeSlow, cmdState)`; `cmdState` is the
prior content of the output slot. -/
def GetState (w : World) (_items : Option ShellItemArray) (_okToBeSlow : Int)
    (_cmdState : Nat) : StateResult :=
  ⟨S_OK, ECS_ENABLED, w⟩

/-- The loop `for (DWORD i = 0; i < count; ++i)` of `Invoke`, at index `i` with
`n = count - i` rounds to go: either the `HRESULT` a round returned with, or `paths` at
the end.  (`TakeLocalAlloc` only frees the path after it has been copied.) -/
def pathsLoop (items : ShellItemArray) : Nat → Nat → WString → World → Except Int WString × World
  | 0, _, paths, w => (Except.ok paths, w)
  | n + 1, i, paths, w =>
    let w1 := w.emit (Event.GetItemAt i)
    let item := items.GetItemAt i
    RETURN_IF_FAILED item.1 (fun hresult => (Except.error hresult, w1)) <|
    let w2 := w1.emit Event.GetDisplayName
    let path := item.2.GetDisplayName
    RETURN_IF_FAILED path.1 (fun hresult => (Except.error hresult, w2)) <|
    pathsLoop items n (i + 1) (paths ++ ([32] ++ path.2)) w2

/-- `ExplorerCommandHandler::Invoke(items, bindCtx)`; `items = none` is the null
pointer. -/
def Invoke (REGISTRY_LOCATION : String) (w : World) (stk : Stack)
    (items : Option ShellItemArray) : InvokeResult :=
  match items with
  | none => ⟨Outcome.returned S_OK, w⟩
  | some arr =>
    let w0 := w.emit Event.GetCount
    RETURN_IF_FAILED arr.GetCount.1 (fun hresult => ⟨Outcome.returned hresult, w0⟩) <|
    let count := arr.GetCount.2
    let value_size_w := 2 * VALUE_W_LEN
    let full_registry_location := REGISTRY_LOCATION ++ "\\command"
    let r := RegOpenKeyExA w0 full_registry_location stk.hkey
    RETURN_IF_FAILED r.1 (fun hresult => ⟨Outcome.returned hresult, r.2.2⟩) <|
    let hkey := r.2.1
    let g := RegGetValueW r.2.2 hkey [] stk.buffer value_size_w
    RETURN_IF_FAILED g.1 (fun hresult => ⟨Outcome.returned hresult, g.2.2⟩) <|
    let value_w := g.2.1
    let c := RegCloseKey g.2.2 hkey
    RETURN_IF_FAILED c.1 (fun hresult => ⟨Outcome.returned hresult, c.2⟩) <|
    match pathsLoop arr count 0 [] c.2 with
    | (Except.error hresult, w1) => ⟨Outcome.returned hresult, w1⟩
    | (Except.ok paths, w1) =>
      let command := wcs value_w
      match replace command (find command PLACEHOLDER) 2 paths with
      | none => ⟨Outcome.out_of_range, w1⟩
      | some command =>
        let p := CreateProcess w1 command
        RETURN_IF_FAILED p.1 (fun hresult => ⟨Outcome.returned hresult, p.2.2.2⟩) <|
        let w2 := CloseHandle p.2.2.2 p.2.1
        let w3 := CloseHandle w2 p.2.2.1
        ⟨Outcome.returned S_OK, w3⟩

/-- The part of `Invoke` from `RegOpenKeyExA` to `RegCloseKey`, entered after `GetCount`:
the content of `value_w` and the world when the key has been closed. -/
def registryStage (REGISTRY_LOCATION : String) (w : World) (stk : Stack) : List Nat × World :=
  let r := RegOpenKeyExA w (REGISTRY_LOCATION ++ "\\command") stk.hkey
  let g := RegGetValueW r.2.2 r.2.1 [] stk.buffer (2 * VALUE_W_LEN)
  (g.2.1, (RegCloseKey g.2.2 r.2.1).2)

/-- The part of `Invoke` after the loop: the substitution and the launch. -/
def launchStage (value_w : List Nat) (paths : WString) (w1 : World) : InvokeResult :=
  let command := wcs value_w
  match replace command (find command PLACEHOLDER) 2 paths with
  | none => ⟨Outcome.out_of_range, w1⟩
  | some command =>
    let p := CreateProcess w1 command
    RETURN_IF_FAILED p.1 (fun hresult => ⟨Outcome.returned hresult, p.2.2.2⟩) <|
    let w2 := CloseHandle p.2.2.2 p.2.1
    let w3 := CloseHandle w2 p.2.2.1
    ⟨Outcome.returned S_OK, w3⟩

/-! ## Sample inputs -/

/-- The registry path the handler is built with in the examples. -/
def sampleLocation : String := "code"

/-- Text as wide string. -/
def wide (s : String) : WString := s.toList.map Char.toNat

/-- The `command` sub-key of the sample registry. -/
def sampleCommandKey (template : WString) : RegKey :=
  ⟨fun v => if v = [] then some template else none⟩

/-- The key of the sample registry. -/
def sampleKey (title : WString) : RegKey :=
  ⟨fun v => if v = [] then some title else if v = ICON then some (wide "code.ico") else none⟩

/-- A registry with the key, its title and icon, and a `command` sub-key holding
`template`. -/
def sampleRegistry (title template : WString) : String → Option RegKey := fun p =>
  if p = "code" then some (sampleKey title)
  else if p = "code\\command" then some (sampleCommandKey template)
  else none

/-- A world with the sample registry, no open handle and an empty log. -/
def sampleWorld (title template : WString) (launch : Bool) : World :=
  ⟨sampleRegistry title template, [], fun _ => launch, []⟩

/-- A stack whose garbage is not zero. -/
def sampleStack : Stack := ⟨7, fun _ => 65⟩

/-- An array of items that all resolve to the given paths. -/
def sampleItems (paths : List WString) : ShellItemArray :=
  ⟨(S_OK, paths.length), fun i => (S_OK, ⟨(S_OK, paths.getD i [])⟩)⟩

/-- A world whose registry has no key at all. -/
def bareWorld : World :=
  ⟨fun _ => none, [], fun _ => true, []⟩

/-- A present item array with no item. -/
def noItems : ShellItemArray := sampleItems []

/-- The text `code.exe %1`. -/
def sampleTemplate : WString := wide "code.exe %1"

/-- The `HRESULT` 0x80004005 read as the signed 32-bit integer it is. -/
def E_FAIL : Int := -2147467259

/-- Three items of which the second does not resolve: its `GetDisplayName` returns
`E_FAIL`. -/
def failingItems : ShellItemArray :=
  ⟨(S_OK, 3), fun i => if i = 1 then (S_OK, ⟨(E_FAIL, [])⟩) else (S_OK, ⟨(S_OK, [97])⟩)⟩

/-- The text `" " ++ p1 ++ " " ++ p2 ++ ... ++ " " ++ pN` for the paths `p1..pN`. -/
def spacedPaths : List WString → WString
  | [] => []
  | p :: ps => [32] ++ p ++ spacedPaths ps

/-! ## Lemmas -/

/-! ### The system calls: status and log -/

theorem FAILED_RegOpenKeyExA (w : World) (p : String) (hk : Nat) :
    FAILED (RegOpenKeyExA w p hk).1 = false := by
  unfold RegOpenKeyExA
  cases h : w.registry p <;> simp [World.emit, h, FAILED, ERROR_FILE_NOT_FOUND, ERROR_SUCCESS]

theorem FAILED_RegGetValueW (w : World) (hk : Nat) (v : WString) (d : List Nat) (cb : Nat) :
    FAILED (RegGetValueW w hk v d cb).1 = false := by
  unfold RegGetValueW
  simp only []
  split
  · simp [FAILED, ERROR_INVALID_HANDLE]
  · split
    · simp [FAILED, ERROR_FILE_NOT_FOUND]
    · split <;> simp [FAILED, ERROR_SUCCESS, ERROR_MORE_DATA]

theorem FAILED_RegCloseKey (w : World) (hk : Nat) : FAILED (RegCloseKey w hk).1 = false := by
  unfold RegCloseKey
  simp only []
  split <;> simp [FAILED, ERROR_SUCCESS, ERROR_INVALID_HANDLE]

theorem FAILED_CreateProcess (w : World) (c : WString) :
    FAILED (CreateProcess w c).1 = false := by
  unfold CreateProcess
  simp only []
  split <;> simp [FAILED, TRUE, FALSE]

theorem log_RegOpenKeyExA (w : World) (p : String) (hk : Nat) :
    (RegOpenKeyExA w p hk).2.2.log = w.log ++ [Event.RegOpenKeyExA p] := by
  unfold RegOpenKeyExA
  cases h : w.registry p <;> simp [World.emit, h]

theorem log_RegGetValueW (w : World) (hk : Nat) (v : WString) (d : List Nat) (cb : Nat) :
    (RegGetValueW w hk v d cb).2.2.log = w.log ++ [Event.RegGetValueW hk v] := by
  unfold RegGetValueW
  simp only []
  split
  · simp [World.emit]
  · split
    · simp [World.emit]
    · split <;> simp [World.emit]

theorem log_RegCloseKey (w : World) (hk : Nat) :
    (RegCloseKey w hk).2.log = w.log ++ [Event.RegCloseKey hk] := by
  unfold RegCloseKey
  simp only []
  split <;> simp [World.emit]

theorem log_CreateProcess (w : World) (c : WString) :
    (CreateProcess w c).2.2.2.log = w.log ++ [Event.CreateProcess c] := by
  unfold CreateProcess
  simp only []
  split <;> simp [World.emit]

theorem log_CloseHandle (w : World) (h : Nat) :
    (CloseHandle w h).log = w.log ++ [Event.CloseHandle h] := by
  unfold CloseHandle
  simp only []
  split <;> simp [World.emit]

theorem log_registryStage (loc : String) (w : World) (stk : Stack) :
    (registryStage loc w stk).2.log =
      w.log ++ [Event.RegOpenKeyExA (loc ++ "\\command"),
        Event.RegGetValueW (RegOpenKeyExA w (loc ++ "\\command") stk.hkey).2.1 [],
        Event.RegCloseKey (RegOpenKeyExA w (loc ++ "\\command") stk.hkey).2.1] := by
  simp [registryStage, log_RegCloseKey, log_RegGetValueW, log_RegOpenKeyExA]

/-- What `RegGetValueW` leaves in the buffer when it is called on the handle that
`RegOpenKeyExA` has just returned for an existing key with the value. -/
theorem value_after_open (w : World) (p : String) (hk : Nat) (v : WString) (d : List Nat)
    (cb : Nat) (key : RegKey) (s : WString)
    (hkey : w.registry p = some key) (hval : key.values v = some s) :
    (RegGetValueW (RegOpenKeyExA w p hk).2.2 (RegOpenKeyExA w p hk).2.1 v d cb).2.1 =
      if 2 * (s.length + 1) ≤ cb then s ++ [0] ++ d.drop (s.length + 1)
      else List.replicate d.length 0 := by
  simp [RegOpenKeyExA, RegGetValueW, World.emit, hkey, World.keyOf, List.lookup, hval]
  split <;> simp

/-! ### Strings -/

theorem wcs_terminated (s rest : List Nat) (h : 0 ∉ s) : wcs (s ++ [0] ++ rest) = s := by
  induction s with
  | nil => simp [wcs]
  | cons c cs ih =>
    have hc : c ≠ 0 := fun hc => h (by simp [hc])
    have hcs : 0 ∉ cs := fun hcs => h (by simp [hcs])
    have := ih hcs
    have hb : (c != 0) = true := by simpa using hc
    simp only [wcs] at this ⊢
    simpa [List.takeWhile_cons, hb] using this


theorem findFrom_first (pre post : WString) (pos : Nat)
    (hfirst : ∀ a b, pre ++ PLACEHOLDER ++ post = a ++ PLACEHOLDER ++ b →
      pre.length ≤ a.length) :
    findFrom PLACEHOLDER (pre ++ PLACEHOLDER ++ post) pos = pos + pre.length := by
  induction pre generalizing pos with
  | nil => simp [findFrom, PLACEHOLDER, List.isPrefixOf]
  | cons c cs ih =>
    have hnp : PLACEHOLDER.isPrefixOf (c :: (cs ++ PLACEHOLDER ++ post)) = false := by
      cases hp : PLACEHOLDER.isPrefixOf (c :: (cs ++ PLACEHOLDER ++ post)) with
      | false => rfl
      | true =>
        obtain ⟨b, hb⟩ := List.isPrefixOf_iff_prefix.mp hp
        have h0 := hfirst [] b (by simpa using hb.symm)
        simp at h0
    have hrec := ih (pos + 1) (fun a b hab => by
      have h1 := hfirst (c :: a) b (by simp [← hab])
      simpa using h1)
    have hstep : findFrom PLACEHOLDER ((c :: cs) ++ PLACEHOLDER ++ post) pos
        = findFrom PLACEHOLDER (cs ++ PLACEHOLDER ++ post) (pos + 1) := by
      show findFrom PLACEHOLDER (c :: (cs ++ PLACEHOLDER ++ post)) pos = _
      simp only [findFrom, hnp]
      simp
    rw [hstep, hrec]
    simp
    omega

theorem findFrom_least (a b : WString) (pos : Nat) :
    findFrom PLACEHOLDER (a ++ PLACEHOLDER ++ b) pos ≤ pos + a.length := by
  induction a generalizing pos with
  | nil => simp [findFrom, PLACEHOLDER, List.isPrefixOf]
  | cons c cs ih =>
    show findFrom PLACEHOLDER (c :: (cs ++ PLACEHOLDER ++ b)) pos ≤ _
    simp only [findFrom]
    split
    · omega
    · have := ih (pos + 1)
      simp only [List.length_cons]
      omega

theorem findFrom_absent (s : WString) (pos : Nat) (h : ¬ PLACEHOLDER <:+: s) :
    findFrom PLACEHOLDER s pos = npos := by
  induction s generalizing pos with
  | nil => simp [findFrom, PLACEHOLDER]
  | cons c cs ih =>
    have hnp : PLACEHOLDER.isPrefixOf (c :: cs) = false := by
      cases hp : PLACEHOLDER.isPrefixOf (c :: cs) with
      | false => rfl
      | true => exact absurd (List.isPrefixOf_iff_prefix.mp hp).isInfix h
    have hcs : ¬ PLACEHOLDER <:+: cs := fun hi => h (List.infix_cons hi)
    simp only [findFrom, hnp]
    simpa using ih (pos + 1) hcs

theorem replace_at (pre post str : WString) :
    replace (pre ++ PLACEHOLDER ++ post) pre.length 2 str = some (pre ++ str ++ post) := by
  simp [replace, PLACEHOLDER]

theorem replace_npos (s str : WString) (h : s.length < npos) :
    replace s npos 2 str = none := by
  simp [replace, h]

theorem wcs_infix (buf : List Nat) : wcs buf <+: buf := by
  simpa [wcs] using List.takeWhile_prefix (fun c => c != 0) (l := buf)

/-! ### The loop over the items -/

theorem processCalls_append (l l' : List Event) :
    processCalls (l ++ l') = processCalls l ++ processCalls l' := by
  simp [processCalls, List.filterMap_append]

theorem itemCalls_append (l l' : List Event) :
    itemCalls (l ++ l') = itemCalls l ++ itemCalls l' := by
  simp [itemCalls, List.filterMap_append]

theorem pathsLoop_processCalls (arr : ShellItemArray) (n i : Nat) (paths : WString)
    (w : World) :
    processCalls (pathsLoop arr n i paths w).2.log = processCalls w.log := by
  induction n generalizing i paths w with
  | zero => simp [pathsLoop]
  | succ n ih =>
    simp only [pathsLoop, RETURN_IF_FAILED]
    split
    · simp [World.emit, processCalls]
    · split
      · simp [World.emit, processCalls]
      · rw [ih]
        simp [World.emit, processCalls]

theorem pathsLoop_error (arr : ShellItemArray) (n i : Nat) (paths : WString) (w : World)
    (hr : Int) (h : (pathsLoop arr n i paths w).1 = Except.error hr) : hr < 0 := by
  induction n generalizing i paths w with
  | zero => simp [pathsLoop] at h
  | succ n ih =>
    simp only [pathsLoop, RETURN_IF_FAILED] at h
    split at h
    · rename_i hf
      simp at h
      subst h
      simpa [FAILED] using hf
    · split at h
      · rename_i hf
        simp at h
        subst h
        simpa [FAILED] using hf
      · exact ih _ _ _ h

theorem pathsLoop_ok (arr : ShellItemArray) (ps : List WString) (i : Nat) (paths : WString)
    (w : World)
    (h : ∀ j (hj : j < ps.length), 0 ≤ (arr.GetItemAt (i + j)).1 ∧
      0 ≤ (arr.GetItemAt (i + j)).2.GetDisplayName.1 ∧
      (arr.GetItemAt (i + j)).2.GetDisplayName.2 = ps[j]) :
    (pathsLoop arr ps.length i paths w).1 = Except.ok (paths ++ spacedPaths ps) := by
  induction ps generalizing i paths w with
  | nil => simp [pathsLoop, spacedPaths]
  | cons p ps ih =>
    have h0 := h 0 (by simp)
    simp only [Nat.add_zero, List.getElem_cons_zero] at h0
    have hf1 : FAILED (arr.GetItemAt i).1 = false := by simp [FAILED, h0.1]
    have hf2 : FAILED (arr.GetItemAt i).2.GetDisplayName.1 = false := by simp [FAILED, h0.2.1]
    simp only [List.length_cons, pathsLoop, RETURN_IF_FAILED, hf1, hf2]
    simp only [Bool.false_eq_true, if_false]
    rw [ih]
    · simp [spacedPaths, h0.2.2]
    · intro j hj
      have hj1 := h (j + 1) (by simp; omega)
      simpa [Nat.add_assoc, Nat.add_comm 1 j] using hj1

theorem pathsLoop_first_failure (arr : ShellItemArray) (k n i : Nat) (e : Int)
    (paths : WString) (w : World) (hk : k < n) (he : e < 0)
    (hbefore : ∀ j, j < k → 0 ≤ (arr.GetItemAt (i + j)).1 ∧
      0 ≤ (arr.GetItemAt (i + j)).2.GetDisplayName.1)
    (hfail : (arr.GetItemAt (i + k)).1 = e ∨
      (0 ≤ (arr.GetItemAt (i + k)).1 ∧ (arr.GetItemAt (i + k)).2.GetDisplayName.1 = e)) :
    (pathsLoop arr n i paths w).1 = Except.error e ∧
    itemCalls (pathsLoop arr n i paths w).2.log = itemCalls w.log ++ List.range' i (k + 1) := by
  induction k generalizing n i paths w with
  | zero =>
    obtain ⟨m, rfl⟩ : ∃ m, n = m + 1 := ⟨n - 1, by omega⟩
    simp only [Nat.add_zero] at hfail
    rcases hfail with hf | ⟨h1, h2⟩
    · have hfe : FAILED e = true := by simp [FAILED, he]
      simp [pathsLoop, RETURN_IF_FAILED, hf, hfe, World.emit, itemCalls]
    · have hf1 : FAILED (arr.GetItemAt i).1 = false := by simp [FAILED, h1]
      have hfe : FAILED e = true := by simp [FAILED, he]
      simp [pathsLoop, RETURN_IF_FAILED, hf1, h2, hfe, World.emit, itemCalls]
  | succ k ih =>
    obtain ⟨m, rfl⟩ : ∃ m, n = m + 1 := ⟨n - 1, by omega⟩
    have h0 := hbefore 0 (by omega)
    simp only [Nat.add_zero] at h0
    have hf1 : FAILED (arr.GetItemAt i).1 = false := by simp [FAILED, h0.1]
    have hf2 : FAILED (arr.GetItemAt i).2.GetDisplayName.1 = false := by simp [FAILED, h0.2]
    simp only [pathsLoop, RETURN_IF_FAILED, hf1, hf2]
    simp only [Bool.false_eq_true, if_false]
    have hrec := ih m (i + 1) (paths ++ ([32] ++ (arr.GetItemAt i).2.GetDisplayName.2))
      ((w.emit (Event.GetItemAt i)).emit Event.GetDisplayName) (by omega)
      (fun j hj => by
        have := hbefore (j + 1) (by omega)
        simpa [Nat.add_assoc, Nat.add_comm 1 j] using this)
      (by simpa [Nat.add_assoc, Nat.add_comm 1 k] using hfail)
    refine ⟨hrec.1, ?_⟩
    rw [hrec.2]
    simp [World.emit, itemCalls, List.range'_succ]


/-! ### `Invoke` in stages -/

theorem Invoke_present (loc : String) (w : World) (stk : Stack) (arr : ShellItemArray)
    (hc : 0 ≤ arr.GetCount.1) :
    Invoke loc w stk (some arr) =
      match pathsLoop arr arr.GetCount.2 0 []
          (registryStage loc (w.emit Event.GetCount) stk).2 with
      | (Except.error hr, w1) => ⟨Outcome.returned hr, w1⟩
      | (Except.ok paths, w1) =>
        launchStage (registryStage loc (w.emit Event.GetCount) stk).1 paths w1 := by
  have hc' : FAILED arr.GetCount.1 = false := by simp [FAILED, hc]
  simp only [Invoke, RETURN_IF_FAILED, hc', FAILED_RegOpenKeyExA, FAILED_RegGetValueW,
    FAILED_RegCloseKey, registryStage, launchStage]
  rfl

theorem Invoke_loop_error (loc : String) (w : World) (stk : Stack) (arr : ShellItemArray)
    (hr : Int) (hc : 0 ≤ arr.GetCount.1)
    (h : (pathsLoop arr arr.GetCount.2 0 []
      (registryStage loc (w.emit Event.GetCount) stk).2).1 = Except.error hr) :
    Invoke loc w stk (some arr) =
      ⟨Outcome.returned hr,
        (pathsLoop arr arr.GetCount.2 0 []
          (registryStage loc (w.emit Event.GetCount) stk).2).2⟩ := by
  rw [Invoke_present loc w stk arr hc]
  rcases hp : pathsLoop arr arr.GetCount.2 0 []
    (registryStage loc (w.emit Event.GetCount) stk).2 with ⟨r, w1⟩
  rw [hp] at h
  simp only at h
  subst h
  rfl

theorem Invoke_loop_ok (loc : String) (w : World) (stk : Stack) (arr : ShellItemArray)
    (paths : WString) (hc : 0 ≤ arr.GetCount.1)
    (h : (pathsLoop arr arr.GetCount.2 0 []
      (registryStage loc (w.emit Event.GetCount) stk).2).1 = Except.ok paths) :
    Invoke loc w stk (some arr) =
      launchStage (registryStage loc (w.emit Event.GetCount) stk).1 paths
        (pathsLoop arr arr.GetCount.2 0 []
          (registryStage loc (w.emit Event.GetCount) stk).2).2 := by
  rw [Invoke_present loc w stk arr hc]
  rcases hp : pathsLoop arr arr.GetCount.2 0 []
    (registryStage loc (w.emit Event.GetCount) stk).2 with ⟨r, w1⟩
  rw [hp] at h
  simp only at h
  subst h
  rfl

theorem processCalls_before_launch (loc : String) (w : World) (stk : Stack)
    (arr : ShellItemArray) :
    processCalls (pathsLoop arr arr.GetCount.2 0 []
      (registryStage loc (w.emit Event.GetCount) stk).2).2.log = processCalls w.log := by
  rw [pathsLoop_processCalls, log_registryStage]
  simp [World.emit, processCalls]

theorem itemCalls_registryStage (loc : String) (w : World) (stk : Stack) :
    itemCalls (registryStage loc (w.emit Event.GetCount) stk).2.log = itemCalls w.log := by
  rw [log_registryStage]
  simp [World.emit, itemCalls]

theorem launchStage_thrown (value_w : List Nat) (paths : WString) (w1 : World)
    (h : replace (wcs value_w) (find (wcs value_w) PLACEHOLDER) 2 paths = none) :
    launchStage value_w paths w1 = ⟨Outcome.out_of_range, w1⟩ := by
  simp [launchStage, h]

theorem launchStage_launched (value_w : List Nat) (paths command : WString) (w1 : World)
    (h : replace (wcs value_w) (find (wcs value_w) PLACEHOLDER) 2 paths = some command) :
    (launchStage value_w paths w1).outcome = Outcome.returned S_OK ∧
    processCalls (launchStage value_w paths w1).world.log
      = processCalls w1.log ++ [command] := by
  simp only [launchStage, h, RETURN_IF_FAILED, FAILED_CreateProcess]
  simp [log_CloseHandle, log_CreateProcess, processCalls]

theorem registryStage_value (loc : String) (w : World) (stk : Stack) (key : RegKey)
    (t : WString) (hkey : w.registry (loc ++ "\\command") = some key)
    (hval : key.values [] = some t) :
    (registryStage loc w stk).1 =
      if 2 * (t.length + 1) ≤ 2 * VALUE_W_LEN then
        t ++ [0] ++ stk.buffer.drop (t.length + 1)
      else List.replicate stk.buffer.length 0 := by
  simp only [registryStage]
  exact value_after_open w _ _ _ _ _ key t hkey hval

theorem wcs_zeroed (n : Nat) : wcs (List.replicate n 0) = [] := by
  cases n <;> simp [wcs, List.replicate_succ]

theorem wcs_written (t rest : List Nat) : wcs (t ++ [0] ++ rest) <+: t := by
  induction t with
  | nil => simp [wcs]
  | cons c cs ih =>
    by_cases hc : c = 0
    · simp [wcs, hc]
    · have hb : (c != 0) = true := by simpa using hc
      simp only [wcs] at ih ⊢
      simpa [List.takeWhile_cons, hb] using ih

/-- No registry status makes `GetTitle` return early: whatever the registry holds, the
value it returns is the `S_OK` of `SHStrDup`. -/
theorem GetTitle_hr (loc : String) (w : World) (stk : Stack) (items : Option ShellItemArray)
    (name : Option WString) : (GetTitle loc w stk items name).hr = S_OK := by
  simp only [GetTitle, RETURN_IF_FAILED, FAILED_RegOpenKeyExA, FAILED_RegGetValueW,
    FAILED_RegCloseKey, SHStrDup, Bool.false_eq_true, if_false]

/-- No registry status makes `GetIcon` return early either. -/
theorem GetIcon_hr (loc : String) (w : World) (stk : Stack) (items : Option ShellItemArray)
    (icon : Option WString) : (GetIcon loc w stk items icon).hr = S_OK := by
  simp only [GetIcon, RETURN_IF_FAILED, FAILED_RegOpenKeyExA, FAILED_RegGetValueW,
    SHStrDup, Bool.false_eq_true, if_false]

/-! ## The claims -/

/-- C1: when the `command` sub-key holds the template `t` (a string that fits the buffer),
`t` is `pre ++ "%1" ++ post` with this the first occurrence of `%1`, and every item of
the selection resolves, to the paths `ps` in host order, then `Invoke` hands exactly one
command line to `CreateProcess`, namely `pre ++ " " ++ p1 ++ ... ++ " " ++ pN ++ post`. -/
theorem Invoke_command_line (loc : String) (w : World) (stk : Stack) (arr : ShellItemArray)
    (key : RegKey) (t pre post : WString) (ps : List WString)
    (hkey : w.registry (loc ++ "\\command") = some key)
    (hval : key.values [] = some t)
    (hlen : t.length < VALUE_W_LEN) (hnul : 0 ∉ t)
    (ht : t = pre ++ PLACEHOLDER ++ post)
    (hfirst : ∀ a b, t = a ++ PLACEHOLDER ++ b → pre.length ≤ a.length)
    (hc : 0 ≤ arr.GetCount.1) (hcount : arr.GetCount.2 = ps.length)
    (hitems : ∀ i (hi : i < ps.length), 0 ≤ (arr.GetItemAt i).1 ∧
      0 ≤ (arr.GetItemAt i).2.GetDisplayName.1 ∧
      (arr.GetItemAt i).2.GetDisplayName.2 = ps[i]) :
    processCalls (Invoke loc w stk (some arr)).world.log =
      processCalls w.log ++ [pre ++ spacedPaths ps ++ post] := by
  have hloop := pathsLoop_ok arr ps 0 []
    (registryStage loc (w.emit Event.GetCount) stk).2 (by simpa using hitems)
  rw [← hcount] at hloop
  rw [Invoke_loop_ok loc w stk arr _ hc hloop]
  have hvalue : wcs (registryStage loc (w.emit Event.GetCount) stk).1 = t := by
    rw [registryStage_value loc (w.emit Event.GetCount) stk key t hkey hval]
    rw [if_pos (by omega)]
    exact wcs_terminated t _ hnul
  have hrep : replace (wcs (registryStage loc (w.emit Event.GetCount) stk).1)
      (find (wcs (registryStage loc (w.emit Event.GetCount) stk).1) PLACEHOLDER) 2
      ([] ++ spacedPaths ps) = some (pre ++ spacedPaths ps ++ post) := by
    rw [hvalue]
    subst ht
    rw [find, findFrom_first pre post 0 hfirst]
    simpa using replace_at pre post (spacedPaths ps)
  rw [(launchStage_launched _ _ _ _ hrep).2, processCalls_before_launch]

/-- C1 at the template `code.exe %1` and three items resolving to `a`, `b`, `c`. -/
theorem Invoke_command_line_witness :
    processCalls
      (Invoke sampleLocation (sampleWorld [79] sampleTemplate true) sampleStack
        (some (sampleItems [[97], [98], [99]]))).world.log =
      processCalls (sampleWorld [79] sampleTemplate true).log ++
        [wide "code.exe " ++ spacedPaths [[97], [98], [99]] ++ []] :=
  Invoke_command_line sampleLocation (sampleWorld [79] sampleTemplate true) sampleStack
    (sampleItems [[97], [98], [99]]) (sampleCommandKey sampleTemplate) sampleTemplate
    (wide "code.exe ") [] [[97], [98], [99]]
    (by rfl) (by rfl) (by decide) (by decide) (by decide)
    (fun a b hab => by
      have h := findFrom_least a b 0
      rw [← hab] at h
      have h9 : findFrom PLACEHOLDER sampleTemplate 0 = 9 := by decide
      rw [h9] at h
      have h9' : (wide "code.exe ").length = 9 := by decide
      omega)
    (by decide) (by rfl)
    (fun i hi => by
      have hi3 : i < 3 := hi
      interval_cases i <;> exact ⟨by decide, by decide, rfl⟩)

/-- C2 (amended): with an absent selection (a null item array) `Invoke` returns `S_OK`
and makes no call at all, so it launches no process. -/
theorem Invoke_absent_selection (loc : String) (w : World) (stk : Stack) :
    (Invoke loc w stk none).outcome = Outcome.returned S_OK ∧
    (Invoke loc w stk none).world.log = w.log ∧
    (Invoke loc w stk none).world.handles = w.handles := by
  simp [Invoke]

/-- C2 (counterexample): with a present item array of count 0 and the template
`code.exe %1`, `Invoke` hands the command line `code.exe ` to `CreateProcess`. -/
theorem Invoke_empty_array_launches :
    noItems.GetCount.2 = 0 ∧
    processCalls (sampleWorld [79] sampleTemplate true).log = [] ∧
    processCalls
      (Invoke sampleLocation (sampleWorld [79] sampleTemplate true) sampleStack
        (some noItems)).world.log = [wide "code.exe "] := by
  decide

set_option maxRecDepth 20000 in
/-- C3 (the code at the failing input): in a registry without the key, opening it gives
`ERROR_FILE_NOT_FOUND`, yet `GetTitle` and `GetIcon` return `S_OK` with an empty string,
and `Invoke` ends in the `std::out_of_range` of `replace` instead of returning the
status. -/
theorem missing_key_not_reported :
    (RegOpenKeyExA bareWorld sampleLocation sampleStack.hkey).1 = ERROR_FILE_NOT_FOUND ∧
    (GetTitle sampleLocation bareWorld sampleStack none none).hr = S_OK ∧
    (GetTitle sampleLocation bareWorld sampleStack none none).out = some [] ∧
    (GetIcon sampleLocation bareWorld sampleStack none none).hr = S_OK ∧
    (GetIcon sampleLocation bareWorld sampleStack none none).out = some [] ∧
    (Invoke sampleLocation bareWorld sampleStack (some (sampleItems [[97]]))).outcome
      = Outcome.out_of_range := by
  decide

/-- C4 (the code at the failing input): when `CreateProcess` fails and returns `FALSE`,
`Invoke` still returns `S_OK`. -/
theorem Invoke_ignores_failed_launch :
    (CreateProcess (sampleWorld [79] sampleTemplate false) (wide "code.exe  a")).1 = FALSE ∧
    processCalls
      (Invoke sampleLocation (sampleWorld [79] sampleTemplate false) sampleStack
        (some (sampleItems [[97]]))).world.log = [wide "code.exe  a"] ∧
    (Invoke sampleLocation (sampleWorld [79] sampleTemplate false) sampleStack
      (some (sampleItems [[97]]))).outcome = Outcome.returned S_OK := by
  decide

/-- C5: when `GetCount` succeeds, items `0..k-1` are fetched and resolved successfully and
item `k < N` is the first to fail, at `GetItemAt` or at `GetDisplayName`, with the
`HRESULT` `e < 0`, then `Invoke` returns exactly `e`, has fetched the items `0..k` and no
other, and has handed nothing to `CreateProcess`. -/
theorem Invoke_first_failure (loc : String) (w : World) (stk : Stack) (arr : ShellItemArray)
    (k : Nat) (e : Int) (hc : 0 ≤ arr.GetCount.1) (hk : k < arr.GetCount.2) (he : e < 0)
    (hbefore : ∀ j, j < k → 0 ≤ (arr.GetItemAt j).1 ∧
      0 ≤ (arr.GetItemAt j).2.GetDisplayName.1)
    (hfail : (arr.GetItemAt k).1 = e ∨
      (0 ≤ (arr.GetItemAt k).1 ∧ (arr.GetItemAt k).2.GetDisplayName.1 = e)) :
    (Invoke loc w stk (some arr)).outcome = Outcome.returned e ∧
    itemCalls (Invoke loc w stk (some arr)).world.log = itemCalls w.log ++ List.range (k + 1) ∧
    processCalls (Invoke loc w stk (some arr)).world.log = processCalls w.log := by
  have hloop := pathsLoop_first_failure arr k arr.GetCount.2 0 e []
    (registryStage loc (w.emit Event.GetCount) stk).2 hk he (by simpa using hbefore)
    (by simpa using hfail)
  rw [Invoke_loop_error loc w stk arr e hc hloop.1]
  refine ⟨rfl, ?_, ?_⟩
  · show itemCalls (pathsLoop arr arr.GetCount.2 0 []
      (registryStage loc (w.emit Event.GetCount) stk).2).2.log = _
    rw [hloop.2, itemCalls_registryStage, List.range_eq_range']
  · exact processCalls_before_launch loc w stk arr

/-- C5 at three items of which the second fails to resolve with `E_FAIL`. -/
theorem Invoke_first_failure_witness :
    (Invoke sampleLocation (sampleWorld [79] sampleTemplate true) sampleStack
      (some failingItems)).outcome = Outcome.returned E_FAIL ∧
    itemCalls (Invoke sampleLocation (sampleWorld [79] sampleTemplate true) sampleStack
      (some failingItems)).world.log
      = itemCalls (sampleWorld [79] sampleTemplate true).log ++ List.range (1 + 1) ∧
    processCalls (Invoke sampleLocation (sampleWorld [79] sampleTemplate true) sampleStack
      (some failingItems)).world.log
      = processCalls (sampleWorld [79] sampleTemplate true).log :=
  Invoke_first_failure sampleLocation (sampleWorld [79] sampleTemplate true) sampleStack
    failingItems 1 E_FAIL (by decide) (by decide) (by decide)
    (fun j hj => by
      have hj0 : j = 0 := by omega
      subst hj0
      decide)
    (Or.inr (by decide))

/-- C6 (amended): when the key exists and its default value is a string `s` that fits
the 1024-element buffer together with its terminator, `GetTitle` succeeds and returns a
copy equal to `s`. -/
theorem GetTitle_returns_value (loc : String) (w : World) (stk : Stack)
    (items : Option ShellItemArray) (name : Option WString) (key : RegKey) (s : WString)
    (hkey : w.registry loc = some key) (hval : key.values [] = some s)
    (hlen : s.length < VALUE_W_LEN) (hnul : 0 ∉ s) :
    (GetTitle loc w stk items name).hr = S_OK ∧
    (GetTitle loc w stk items name).out = some s := by
  simp only [GetTitle, RETURN_IF_FAILED, FAILED_RegOpenKeyExA, FAILED_RegGetValueW,
    FAILED_RegCloseKey, SHStrDup, Bool.false_eq_true, if_false]
  rw [value_after_open w loc _ _ _ _ key s hkey hval, if_pos (by omega)]
  exact ⟨trivial, congrArg some (wcs_terminated s _ hnul)⟩

/-- C6 (amended) at the title `Open`. -/
theorem GetTitle_returns_value_witness :
    (GetTitle sampleLocation (sampleWorld (wide "Open") sampleTemplate true) sampleStack
      none none).hr = S_OK ∧
    (GetTitle sampleLocation (sampleWorld (wide "Open") sampleTemplate true) sampleStack
      none none).out = some (wide "Open") :=
  GetTitle_returns_value sampleLocation (sampleWorld (wide "Open") sampleTemplate true)
    sampleStack none none (sampleKey (wide "Open")) (wide "Open")
    (by rfl) (by rfl) (by decide) (by decide)

set_option maxRecDepth 20000 in
/-- C6 (counterexample): a default value of 1024 code units does not fit the buffer with
its terminator; `GetTitle` returns `S_OK` with the empty string, not the value. -/
theorem GetTitle_long_value :
    (GetTitle sampleLocation (sampleWorld (List.replicate 1024 65) sampleTemplate true)
      sampleStack none none).hr = S_OK ∧
    (GetTitle sampleLocation (sampleWorld (List.replicate 1024 65) sampleTemplate true)
      sampleStack none none).out = some [] ∧
    (GetTitle sampleLocation (sampleWorld (List.replicate 1024 65) sampleTemplate true)
      sampleStack none none).out ≠ some (List.replicate 1024 65) := by
  decide

/-- C7: `GetState` returns `S_OK` and reports `ECS_ENABLED` for every selection, every
allow-slow hint and every prior content of the output slot, and it leaves the world as it
found it: no call is made to the selection or the registry. -/
theorem GetState_enabled (w : World) (items : Option ShellItemArray) (okToBeSlow : Int)
    (cmdState : Nat) :
    (GetState w items okToBeSlow cmdState).hr = S_OK ∧
    (GetState w items okToBeSlow cmdState).cmdState = ECS_ENABLED ∧
    (GetState w items okToBeSlow cmdState).world.log = w.log ∧
    (GetState w items okToBeSlow cmdState).world.handles = w.handles := by
  simp [GetState]

/-- C8: `GetToolTip` returns `E_NOTIMPL`, which is a failing `HRESULT` and not `S_OK`, and
leaves the output tooltip null, for every selection and every prior content of the
slot. -/
theorem GetToolTip_not_implemented (w : World) (items : Option ShellItemArray)
    (infoTip : Option WString) :
    (GetToolTip w items infoTip).hr = E_NOTIMPL ∧
    FAILED (GetToolTip w items infoTip).hr = true ∧
    (GetToolTip w items infoTip).hr ≠ S_OK ∧
    (GetToolTip w items infoTip).out = none := by
  simp [GetToolTip, E_NOTIMPL, S_OK, FAILED]

/-- C9: when the `command` sub-key holds a template without any occurrence of `%1` (the
empty template included), `Invoke` on a present selection does not report success: it
either returns a failing `HRESULT` or ends in the `std::out_of_range` that `replace`
throws at `npos`; in both cases nothing is handed to `CreateProcess`. -/
theorem Invoke_without_placeholder (loc : String) (w : World) (stk : Stack)
    (arr : ShellItemArray) (key : RegKey) (t : WString)
    (hkey : w.registry (loc ++ "\\command") = some key)
    (hval : key.values [] = some t)
    (hno : ¬ PLACEHOLDER <:+: t) :
    (Invoke loc w stk (some arr)).outcome ≠ Outcome.returned S_OK ∧
    (∀ hr, (Invoke loc w stk (some arr)).outcome = Outcome.returned hr → hr < 0) ∧
    processCalls (Invoke loc w stk (some arr)).world.log = processCalls w.log := by
  by_cases hc : 0 ≤ arr.GetCount.1
  · have hvalue : ¬ PLACEHOLDER <:+: wcs (registryStage loc (w.emit Event.GetCount) stk).1 ∧
        (wcs (registryStage loc (w.emit Event.GetCount) stk).1).length < npos := by
      rw [registryStage_value loc (w.emit Event.GetCount) stk key t hkey hval]
      split
      · rename_i hfit
        have hpre := wcs_written t (List.drop (t.length + 1) stk.buffer)
        refine ⟨fun hi => hno (hi.trans hpre.isInfix), ?_⟩
        have := hpre.length_le
        simp only [VALUE_W_LEN] at hfit
        simp only [npos]
        omega
      · rw [wcs_zeroed]
        refine ⟨fun hi => hno ?_, by simp [npos]⟩
        exact hi.trans List.nil_infix
    cases hp : (pathsLoop arr arr.GetCount.2 0 []
        (registryStage loc (w.emit Event.GetCount) stk).2).1 with
    | error hr =>
      have hneg := pathsLoop_error _ _ _ _ _ hr hp
      rw [Invoke_loop_error loc w stk arr hr hc hp]
      refine ⟨?_, ?_, processCalls_before_launch loc w stk arr⟩
      · intro h
        simp only [Outcome.returned.injEq, S_OK] at h
        omega
      · intro hr2 h
        simp only [Outcome.returned.injEq] at h
        omega
    | ok paths =>
      rw [Invoke_loop_ok loc w stk arr paths hc hp]
      have hthrow : replace (wcs (registryStage loc (w.emit Event.GetCount) stk).1)
          (find (wcs (registryStage loc (w.emit Event.GetCount) stk).1) PLACEHOLDER) 2 paths
          = none := by
        rw [find, findFrom_absent _ 0 hvalue.1]
        exact replace_npos _ _ hvalue.2
      rw [launchStage_thrown _ _ _ hthrow]
      refine ⟨by simp, by simp, processCalls_before_launch loc w stk arr⟩
  · have hc' : FAILED arr.GetCount.1 = true := by
      simp only [FAILED, decide_eq_true_eq]
      omega
    simp only [Invoke, RETURN_IF_FAILED, hc']
    refine ⟨?_, ?_, ?_⟩
    · intro h
      simp only [if_true, Outcome.returned.injEq, S_OK] at h
      omega
    · intro hr2 h
      simp only [if_true, Outcome.returned.injEq] at h
      omega
    · simp [World.emit, processCalls]

/-- C9 at the template `code.exe`, which has no `%1`. -/
theorem Invoke_without_placeholder_witness :
    (Invoke sampleLocation (sampleWorld [79] (wide "code.exe") true) sampleStack
      (some (sampleItems [[97]]))).outcome ≠ Outcome.returned S_OK ∧
    (∀ hr, (Invoke sampleLocation (sampleWorld [79] (wide "code.exe") true) sampleStack
      (some (sampleItems [[97]]))).outcome = Outcome.returned hr → hr < 0) ∧
    processCalls (Invoke sampleLocation (sampleWorld [79] (wide "code.exe") true) sampleStack
      (some (sampleItems [[97]]))).world.log
      = processCalls (sampleWorld [79] (wide "code.exe") true).log :=
  Invoke_without_placeholder sampleLocation (sampleWorld [79] (wide "code.exe") true)
    sampleStack (sampleItems [[97]]) (sampleCommandKey (wide "code.exe")) (wide "code.exe")
    (by rfl) (by rfl) (by decide)

/-- C10 (the code at the failing input): `GetIcon` on a registry that has the key and its
`Icon` value returns `S_OK` and leaves the key handle it opened open, where `GetTitle`
on the same world closes its handle. -/
theorem GetIcon_leaves_key_open :
    (sampleWorld [79] sampleTemplate true).openKeys = [] ∧
    (GetIcon sampleLocation (sampleWorld [79] sampleTemplate true) sampleStack none
      none).hr = S_OK ∧
    (GetIcon sampleLocation (sampleWorld [79] sampleTemplate true) sampleStack none
      none).world.openKeys = [1] ∧
    (GetTitle sampleLocation (sampleWorld [79] sampleTemplate true) sampleStack none
      none).world.openKeys = [] := by
  decide

end ExplorerCommand
